import Mathlib

/-!
# Verification of the CoinKiosk annotation subsystem (src/src/main.ts)

Shallow embedding of the annotation store, the full re-render pipeline
(`renderAnnotations`), the marker-geometry table (`getMarkerGeometry`), the
store operations (`addAnnotation`, `updateAnnotation`, `deleteAnnotation`,
`saveEdit`), the mouse interaction controller (`onMouseDown`, `onMouseMove`,
`onMouseUp`, modal open/close), the camera focus logic (`focusOnAnnotation`)
and the easing function of `animateCameraTo`.

Conventions of the embedding:
* 3D vectors use rational coordinates (`Vec3`); the real-valued easing math of
  `animateCameraTo` is modelled separately over `ℝ` (`eased`, `lerp`).
* JavaScript `undefined` for a string field is `Option String`'s `none`.
* Array indices arriving from call sites are `Int` (JavaScript numbers can be
  negative); JS semantics of `array[i]` truthiness checks and of
  `Array.prototype.splice` are reproduced exactly.
* The three.js raycaster is the library boundary: mouse handlers receive the
  raycast *result* as input (which tagged object a mouse-down ray first hits;
  which point a mouse-move ray hits on the proxy sphere).
* `position.clone().normalize().multiplyScalar(2.5)` divides by a Euclidean
  norm (irrational in general); the label anchor is therefore represented by
  its defining data — base vector and scale factor — under the deterministic
  library normalization (`LabelAnchor`).
-/

namespace CoinKiosk

/-- A 3D point, as in `THREE.Vector3`, with exact rational coordinates. -/
structure Vec3 where
  x : ℚ
  y : ℚ
  z : ℚ
deriving DecidableEq, Repr

/-- One annotation record of the store (`this.annotations` entries), data
fields only.  The transient render handles `marker?`/`mesh?` are owned by the
renderer and appear in the scene model (`SceneObject`) instead.  `description`
is `Option String` because the running JavaScript can store `undefined` in it
(see `saveEdit`). -/
structure Annotation where
  position : Vec3
  label : String
  description : Option String
  color : String
  shape : String
deriving DecidableEq, Repr

/-- Geometry values produced by the three.js geometry constructors used in the
file: `RingGeometry`, `BoxGeometry`, `ConeGeometry`, `CylinderGeometry`,
`SphereGeometry`. -/
inductive Geometry where
  | ring (innerRadius outerRadius : ℚ) (thetaSegments : Nat)
  | box (width height depth : ℚ)
  | cone (radius height : ℚ) (radialSegments : Nat)
  | cylinder (radiusTop radiusBottom height : ℚ) (radialSegments : Nat)
  | sphere (radius : ℚ) (widthSegments heightSegments : Nat)
deriving DecidableEq, Repr

/-- `getMarkerGeometry(shape)` (main.ts lines 313–326): geometry for an
annotation marker based on the shape type, with `size = 0.05`. -/
def getMarkerGeometry (shape : String) : Geometry :=
  let size : ℚ := 5 / 100
  match shape with
  | "cube" => .box (size * 2) (size * 2) (size * 2)
  | "cone" => .cone size (size * 2) 16
  | "cylinder" => .cylinder size size (size * 2) 16
  | _ => .sphere size 16 16

/-- The label anchor `position.clone().normalize().multiplyScalar(2.5)`
(main.ts line 262 and 298), kept as its defining data: normalization divides by
the Euclidean norm of `base` (irrational in general), and the resulting point
is the deterministic library function of exactly these data. -/
structure LabelAnchor where
  base : Vec3
  scale : ℚ
deriving DecidableEq, Repr

/-- The anchor used for both the connecting line's far endpoint and the CSS2D
label offset: base = the annotation position, scale = 2.5. -/
def labelAnchor (p : Vec3) : LabelAnchor := ⟨p, 5 / 2⟩

/-- The CSS2D label built for one annotation (main.ts lines 280–303): title
text from `annotation.label`, description text from `annotation.description`,
positioned at the anchor, attached as a child of the marker. -/
structure LabelVisual where
  title : String
  description : Option String
  offset : LabelAnchor
deriving DecidableEq, Repr

/-- The ring marker built for one annotation (main.ts lines 243–303):
`userData.annotationIndex = index`, position copied from the record,
`lookAt(this.camera.position)` recorded as `lookAtTarget`, material color from
the record, plus its attached CSS2D label child. -/
structure MarkerVisual where
  index : Nat
  position : Vec3
  lookAtTarget : Vec3
  color : String
  geom : Geometry
  label : LabelVisual
deriving DecidableEq, Repr

/-- The thin connecting line built for one annotation (main.ts lines 265–277):
from the annotation position to the label anchor, in the record's color. -/
structure LineVisual where
  startPoint : Vec3
  endPoint : LabelAnchor
  color : String
deriving DecidableEq, Repr

/-- A child of the scene graph.  `annMarker` and `annLine` carry
`userData.isAnnotationMarker = true` (only markers also carry an
`annotationIndex`); `other` stands for the untagged scene content (lights, the
coin model, the wireframe), identified by an opaque id. -/
inductive SceneObject where
  | annMarker (m : MarkerVisual)
  | annLine (l : LineVisual)
  | other (id : Nat)
deriving DecidableEq, Repr

/-- `userData.isAnnotationMarker` flag of a scene child. -/
def SceneObject.isAnnotationMarker : SceneObject → Bool
  | .annMarker _ => true
  | .annLine _ => true
  | .other _ => false

/-- The marker visual `renderAnnotations` builds for the record `a` at array
index `index` when the camera sits at `cam` (main.ts lines 243–303).  The
geometry is always `RingGeometry(0.03, 0.04, 32)`; `getMarkerGeometry` has no
call site in the file. -/
def renderMarker (cam : Vec3) (index : Nat) (a : Annotation) : MarkerVisual :=
  { index := index
    position := a.position
    lookAtTarget := cam
    color := a.color
    geom := .ring (3 / 100) (1 / 25) 32
    label := { title := a.label, description := a.description
               offset := labelAnchor a.position } }

/-- The connecting line `renderAnnotations` builds for the record `a`
(main.ts lines 265–277). -/
def renderLine (a : Annotation) : LineVisual :=
  { startPoint := a.position, endPoint := labelAnchor a.position
    color := a.color }

/-- `renderAnnotations()` (main.ts lines 235–308): filter every child with
`userData.isAnnotationMarker` out of the scene, then for each record append a
freshly built marker (with its label child) followed by its connecting line. -/
def renderAnnotations (cam : Vec3) (anns : List Annotation)
    (scene : List SceneObject) : List SceneObject :=
  scene.filter (fun o => !o.isAnnotationMarker) ++
    (anns.enum.map (fun p =>
      [SceneObject.annMarker (renderMarker cam p.1 p.2),
       SceneObject.annLine (renderLine p.2)])).flatten

/-- The annotation visuals of a scene: the children tagged
`isAnnotationMarker`. -/
def annotationVisuals (scene : List SceneObject) : List SceneObject :=
  scene.filter (fun o => o.isAnnotationMarker)

/-- The marker visuals present in a scene, in scene order. -/
def markersOf (scene : List SceneObject) : List MarkerVisual :=
  scene.filterMap (fun o => match o with
    | .annMarker m => some m
    | _ => none)

/-- The screen-space labels present in a scene: each marker carries exactly
one CSS2D label child. -/
def labelsOf (scene : List SceneObject) : List LabelVisual :=
  (markersOf scene).map (·.label)

/-- `addAnnotation(label, position, color, shape, description)` (main.ts lines
345–348): push a record (re-render is modelled separately, by applying
`renderAnnotations` to the result). -/
def addAnnotation (anns : List Annotation) (label : String) (position : Vec3)
    (color : String := "#8b7ba8") (shape : String := "sphere")
    (description : Option String := some "") : List Annotation :=
  anns ++ [{ position := position, label := label, description := description
             color := color, shape := shape }]

/-- `updateAnnotation(index, label, position, color, shape, description)`
(main.ts lines 353–362): `if (this.annotations[index])` — JS indexing yields
`undefined` (falsy) exactly when `index` is outside `[0, length)`, so the
update no-ops there; otherwise all five data fields are overwritten. -/
def updateAnnotation (anns : List Annotation) (index : Int) (label : String)
    (position : Vec3) (color : String) (shape : String)
    (description : Option String) : List Annotation :=
  if 0 ≤ index ∧ index < anns.length then
    anns.set index.toNat { position := position, label := label
                           description := description, color := color
                           shape := shape }
  else anns

/-- The start index `Array.prototype.splice(start, 1)` actually uses:
`start < 0` resolves to `max(length + start, 0)`; otherwise it is clamped to
`min(start, length)`. -/
def spliceStart (len : Nat) (i : Int) : Nat :=
  if i < 0 then ((len : Int) + i).toNat else min i.toNat len

/-- `deleteAnnotation(index)` (main.ts lines 367–370):
`this.annotations.splice(index, 1)` with full JS splice index semantics — in
particular a negative index deletes counting from the end. -/
def deleteAnnotation (anns : List Annotation) (index : Int) : List Annotation :=
  anns.eraseIdx (spliceStart anns.length index)

/-- The single scholarly annotation installed by `setupAnnotations()`
(main.ts lines 219–227). -/
def initialAnnotations : List Annotation :=
  [{ position := ⟨9/10, 5/100, 2/10⟩
     label := "Imperial Inscription"
     description := some "The Latin inscription names the emperor and asserts his authority, functioning as both identification and propaganda."
     color := "#8b7ba8"
     shape := "sphere" }]

/-! ## Interaction controller and application state -/

/-- The mutable fields of the `CoinKiosk` class that the annotation and
interaction logic touches: the store, the scene, the camera position, the edit
modal state, the drag state, and the orbit-controls enabled flag. -/
structure AppState where
  annotations : List Annotation
  scene : List SceneObject
  camera : Vec3
  currentEditIndex : Option Nat
  isDragging : Bool
  draggedAnnotationIndex : Option Nat
  controlsEnabled : Bool
deriving DecidableEq, Repr

/-- Re-render in place: `this.renderAnnotations()` run on a state. -/
def AppState.rerender (s : AppState) : AppState :=
  { s with scene := renderAnnotations s.camera s.annotations s.scene }

/-- The state after the constructor runs `setupAnnotations()` (which calls
`renderAnnotations`): one scholarly annotation, no modal, no drag.  `other 0`
stands for the untagged scene content (lights, coin model). -/
def initialState : AppState :=
  AppState.rerender
    { annotations := initialAnnotations
      scene := [.other 0]
      camera := ⟨5, 3, 5⟩
      currentEditIndex := none
      isDragging := false
      draggedAnnotationIndex := none
      controlsEnabled := true }

/-- What a mouse-down ray reports about the first tagged object it hits
(main.ts line 474, `intersects[0].object`): `none` when the ray hits no tagged
object; `some none` when the first hit is a connecting line (tagged, but its
`userData.annotationIndex` is `undefined`); `some (some j)` when the first hit
is the marker of annotation `j`. -/
abbrev MouseDownHit := Option (Option Nat)

/-- `onMouseDown(event)` (main.ts lines 461–481): bail out unless an editor is
open; if the ray's first tagged hit carries `annotationIndex` equal to
`currentEditIndex`, start the drag on that index and disable the controls. -/
def onMouseDown (s : AppState) (hit : MouseDownHit) : AppState :=
  match s.currentEditIndex with
  | none => s
  | some edit =>
    match hit with
    | some (some j) =>
      if j = edit then
        { s with isDragging := true, draggedAnnotationIndex := some edit,
                 controlsEnabled := false }
      else s
    | _ => s

/-- The radius of the invisible proxy sphere `onMouseMove` raycasts against:
`new THREE.SphereGeometry(1.5, 32, 32)` on a mesh left at the default position,
the model origin (main.ts lines 495–496). -/
def proxySphereRadius : ℚ := 3 / 2

/-- A point lies on the proxy sphere centered at the model origin. -/
def OnProxySphere (p : Vec3) : Prop :=
  p.x ^ 2 + p.y ^ 2 + p.z ^ 2 = proxySphereRadius ^ 2

/-- Overwrite only the `position` field of the record at `i`
(`annotations[i].position.copy(newPosition)`, main.ts line 502).  An
out-of-range `i` would be a TypeError in JS; the model leaves the list
unchanged there, and no claim depends on that case. -/
def setPosition (anns : List Annotation) (i : Nat) (p : Vec3) :
    List Annotation :=
  match anns[i]? with
  | some a => anns.set i { a with position := p }
  | none => anns

/-- `onMouseMove(event)` (main.ts lines 486–512): bail out unless a drag is in
progress; re-cast the ray against the invisible proxy sphere (`hit` is the
library's first intersection point, `none` when the ray misses); on a hit,
copy the point into the dragged record's position and do a full re-render. -/
def onMouseMove (s : AppState) (hit : Option Vec3) : AppState :=
  if !s.isDragging then s
  else match s.draggedAnnotationIndex with
    | none => s
    | some i =>
      match hit with
      | none => s
      | some p =>
        AppState.rerender { s with annotations := setPosition s.annotations i p }

/-- `onMouseUp()` (main.ts lines 517–523): end the drag and re-enable the
controls (only when a drag was in progress). -/
def onMouseUp (s : AppState) : AppState :=
  if s.isDragging then
    { s with isDragging := false, draggedAnnotationIndex := none,
             controlsEnabled := true }
  else s

/-- The values read from the edit modal's form fields (main.ts lines 565–572). -/
structure EditForm where
  labelValue : String
  colorValue : String
  shapeValue : String
deriving DecidableEq, Repr

/-- `openEditModal(index)` (main.ts lines 528–557): sets `currentEditIndex`;
the DOM/form population has no effect on the modelled state. -/
def openEditModal (s : AppState) (index : Nat) : AppState :=
  { s with currentEditIndex := some index }

/-- `closeEditModal()` (main.ts lines 581–585): clears `currentEditIndex`.
Note it does NOT touch `isDragging` or `draggedAnnotationIndex`. -/
def closeEditModal (s : AppState) : AppState :=
  { s with currentEditIndex := none }

/-- `saveEdit()` (main.ts lines 562–576): bail out when no editor is open;
read the form, trim the label, keep the record's own position, and call
`updateAnnotation(index, label, position, color, shape)` — with NO description
argument, so the record's description is overwritten with `undefined` (`none`).
Reading `.position` of a missing record is a TypeError, modelled as `none`. -/
def saveEdit (s : AppState) (form : EditForm) : Option AppState :=
  match s.currentEditIndex with
  | none => some s
  | some i =>
    match s.annotations[i]? with
    | none => none
    | some a =>
      some (closeEditModal (AppState.rerender
        { s with annotations := ( updateAnnotation s.annotations i
            form.labelValue.trim a.position form.colorValue form.shapeValue
            none) }))

/-- `addNewAnnotation()` (main.ts lines 448–456): append a default record,
re-render, then open the edit modal on the new last index. -/
def addNewAnnotation (s : AppState) : AppState :=
  let anns := addAnnotation s.annotations
    ("Annotation " ++ toString (s.annotations.length + 1)) ⟨0, 2/10, 1⟩
    "#8b7ba8" "sphere" (some "Add your annotation description here.")
  openEditModal (AppState.rerender { s with annotations := anns })
    (anns.length - 1)

/-- The user/DOM events that drive the interaction controller.  Mouse events
carry the raycast outcome the library would report for them. -/
inductive Event where
  | evAddNew
  | evMouseDown (hit : MouseDownHit)
  | evMouseMove (hit : Option Vec3)
  | evMouseUp
  | evCloseModal
  | evSaveEdit (form : EditForm)
deriving Repr

/-- One controller step.  A `saveEdit` on a missing record throws in JS; the
model keeps the pre-throw state (the exception aborts the handler before any
mutation). -/
def stepEvent (s : AppState) (e : Event) : AppState :=
  match e with
  | .evAddNew => addNewAnnotation s
  | .evMouseDown hit => onMouseDown s hit
  | .evMouseMove hit => onMouseMove s hit
  | .evMouseUp => onMouseUp s
  | .evCloseModal => closeEditModal s
  | .evSaveEdit form => (saveEdit s form).getD s

/-- The state reached from the freshly constructed kiosk by a sequence of
events. -/
def runEvents (evs : List Event) : AppState :=
  evs.foldl stepEvent initialState

/-! ## Camera focus and easing -/

/-- `focusOnAnnotation(index)` (main.ts lines 590–602): when `index` is inside
`[0, length)`, request a camera animation toward the annotation — camera target
at the annotation position plus the fixed offset `(2, 1.5, 2)`, look-at target
at the annotation position.  Outside the range, no animation is started
(`none`). -/
def focusOnAnnotation (anns : List Annotation) (index : Int) :
    Option (Vec3 × Vec3) :=
  if h : 0 ≤ index ∧ index < anns.length then
    let a := anns.get ⟨index.toNat, by omega⟩
    some (⟨a.position.x + 2, a.position.y + 3/2, a.position.z + 2⟩, a.position)
  else none

/-- The camera state the animation acts on: position and orbit-controls
look-at target. -/
structure CameraState where
  position : Vec3
  target : Vec3
deriving DecidableEq, Repr

/-- Effect of a focus request on the camera: `none` leaves it untouched,
`some (p, t)` animates it (ending, at progress 1, exactly at `p` looking at
`t`, since the ease function maps 1 to 1). -/
def applyFocus (cam : CameraState) : Option (Vec3 × Vec3) → CameraState
  | none => cam
  | some (p, t) => { position := p, target := t }

/-- The quadratic ease-in-out of `animateCameraTo` (main.ts lines 618–620):
`2·p²` below one half, `-1 + (4 − 2·p)·p` from one half on. -/
noncomputable def eased (p : ℝ) : ℝ :=
  if p < 1/2 then 2 * p * p else -1 + (4 - 2 * p) * p

/-- Scalar linear interpolation, one component of
`Vector3.lerpVectors(a, b, t)`: `a + (b − a) · t`. -/
def lerp (a b t : ℝ) : ℝ := a + (b - a) * t

/-- A 3D vector with real coordinates, for the camera interpolation math. -/
structure Vec3R where
  x : ℝ
  y : ℝ
  z : ℝ

/-- `THREE.Vector3.lerpVectors`, componentwise `lerp`. -/
def lerpVectors (a b : Vec3R) (t : ℝ) : Vec3R :=
  ⟨lerp a.x b.x t, lerp a.y b.y t, lerp a.z b.z t⟩

/-! ## Auxiliary definitions for stating the properties -/

/-- One operation of the annotation store API (§4.1 of the spec). -/
inductive StoreOp where
  | add (label : String) (position : Vec3) (color shape : String)
      (description : Option String)
  | update (index : Int) (label : String) (position : Vec3)
      (color shape : String) (description : Option String)
  | delete (index : Int)
deriving Repr

/-- Apply one store operation to the annotation array. -/
def applyStoreOp (anns : List Annotation) : StoreOp → List Annotation
  | .add l p c sh d => addAnnotation anns l p c sh d
  | .update i l p c sh d => updateAnnotation anns i l p c sh d
  | .delete i => deleteAnnotation anns i

/-- Forget the camera-dependent attribute of a visual: the marker's
`lookAt` orientation target.  Everything else is kept. -/
def eraseOrientation : SceneObject → SceneObject
  | .annMarker m => .annMarker { m with lookAtTarget := ⟨0, 0, 0⟩ }
  | o => o

/-- The non-position data fields of a record, for frame-effect statements. -/
def dataFields (a : Annotation) : String × Option String × String × String :=
  (a.label, a.description, a.color, a.shape)

/-- A kiosk state with the edit modal open on the initial annotation, as after
the user flow that opens the editor. -/
def editingState : AppState := openEditModal initialState 0

/-- A kiosk state in the middle of a drag of annotation 0: the editor is open
on it and a mouse-down ray hit its marker. -/
def draggingState : AppState := onMouseDown editingState (some (some 0))

/-! ## Helper lemmas about the render pipeline -/

/-- The scene children `renderAnnotations` appends for a given (index, record)
list. -/
def builtVisuals (cam : Vec3) (l : List (Nat × Annotation)) : List SceneObject :=
  (l.map (fun p =>
    [SceneObject.annMarker (renderMarker cam p.1 p.2),
     SceneObject.annLine (renderLine p.2)])).flatten

theorem renderAnnotations_eq (cam : Vec3) (anns : List Annotation)
    (scene : List SceneObject) :
    renderAnnotations cam anns scene =
      scene.filter (fun o => !o.isAnnotationMarker) ++ builtVisuals cam anns.enum := rfl

theorem markersOf_append (s t : List SceneObject) :
    markersOf (s ++ t) = markersOf s ++ markersOf t :=
  List.filterMap_append ..

theorem markersOf_unflagged (scene : List SceneObject) :
    markersOf (scene.filter (fun o => !o.isAnnotationMarker)) = [] := by
  induction scene with
  | nil => rfl
  | cons o t ih =>
    cases o <;> simp_all [markersOf, SceneObject.isAnnotationMarker]

theorem markersOf_built (cam : Vec3) (l : List (Nat × Annotation)) :
    markersOf (builtVisuals cam l) = l.map (fun p => renderMarker cam p.1 p.2) := by
  induction l with
  | nil => rfl
  | cons p t ih => simp [builtVisuals, markersOf] at ih ⊢; simp [ih]

theorem markersOf_render (cam : Vec3) (anns : List Annotation)
    (scene : List SceneObject) :
    markersOf (renderAnnotations cam anns scene) =
      anns.enum.map (fun p => renderMarker cam p.1 p.2) := by
  rw [renderAnnotations_eq, markersOf_append, markersOf_unflagged,
    markersOf_built, List.nil_append]

theorem visuals_unflagged (scene : List SceneObject) :
    annotationVisuals (scene.filter (fun o => !o.isAnnotationMarker)) = [] := by
  induction scene with
  | nil => rfl
  | cons o t ih =>
    cases o <;> simp_all [annotationVisuals, SceneObject.isAnnotationMarker]

theorem visuals_built (cam : Vec3) (l : List (Nat × Annotation)) :
    annotationVisuals (builtVisuals cam l) = builtVisuals cam l := by
  induction l with
  | nil => rfl
  | cons p t ih =>
    have hc : builtVisuals cam (p :: t) =
        SceneObject.annMarker (renderMarker cam p.1 p.2) ::
          SceneObject.annLine (renderLine p.2) :: builtVisuals cam t := rfl
    rw [hc]
    unfold annotationVisuals at ih ⊢
    rw [List.filter_cons_of_pos, List.filter_cons_of_pos, ih] <;> rfl

theorem annotationVisuals_render (cam : Vec3) (anns : List Annotation)
    (scene : List SceneObject) :
    annotationVisuals (renderAnnotations cam anns scene) =
      builtVisuals cam anns.enum := by
  rw [renderAnnotations_eq]
  show List.filter _ (_ ++ _) = _
  rw [List.filter_append]
  rw [show List.filter (fun o => o.isAnnotationMarker)
        (scene.filter (fun o => !o.isAnnotationMarker)) = []
      from visuals_unflagged scene]
  rw [List.nil_append]
  exact visuals_built cam anns.enum

theorem built_erase_orientation (cam cam' : Vec3) (l : List (Nat × Annotation)) :
    (builtVisuals cam l).map eraseOrientation =
      (builtVisuals cam' l).map eraseOrientation := by
  induction l with
  | nil => rfl
  | cons p t ih =>
    have hc : builtVisuals cam (p :: t) =
        SceneObject.annMarker (renderMarker cam p.1 p.2) ::
          SceneObject.annLine (renderLine p.2) :: builtVisuals cam t := rfl
    have hc' : builtVisuals cam' (p :: t) =
        SceneObject.annMarker (renderMarker cam' p.1 p.2) ::
          SceneObject.annLine (renderLine p.2) :: builtVisuals cam' t := rfl
    rw [hc, hc', List.map_cons, List.map_cons, List.map_cons, List.map_cons, ih]
    rfl

/-! ## C10: out-of-range focus is a no-op -/

/-- C10: for every index outside `[0, annotations.length)`, `focus(i)` starts
no camera animation and leaves the camera position and the orbit-control
look-at target unchanged. -/
theorem focus_out_of_range_noop (anns : List Annotation) (i : Int)
    (cam : CameraState) (hout : ¬ (0 ≤ i ∧ i < (anns.length : Int))) :
    focusOnAnnotation anns i = none ∧
      applyFocus cam ( focusOnAnnotation anns i) = cam := by
  unfold focusOnAnnotation
  rw [dif_neg hout]
  exact ⟨rfl, rfl⟩

/-- Witness for C10 at the concrete out-of-range indices 5 and −1 on the
initial store. -/
theorem focus_out_of_range_noop_witness :
    ( focusOnAnnotation initialAnnotations 5 = none ∧
      applyFocus ⟨⟨5, 3, 5⟩, ⟨0, 0, 0⟩⟩ ( focusOnAnnotation initialAnnotations 5) =
        ⟨⟨5, 3, 5⟩, ⟨0, 0, 0⟩⟩) ∧
    ( focusOnAnnotation initialAnnotations (-1) = none) :=
  ⟨focus_out_of_range_noop initialAnnotations 5 ⟨⟨5, 3, 5⟩, ⟨0, 0, 0⟩⟩ (by decide),
   (focus_out_of_range_noop initialAnnotations (-1) ⟨⟨5, 3, 5⟩, ⟨0, 0, 0⟩⟩
      (by decide)).1⟩

/-! ## C5: visual counts track the store length -/

/-- C5: for every sequence of add/update/delete operations (each followed by
its re-render), the number of annotation markers in the scene and the number
of screen-space labels each equal the length of the annotation array. -/
theorem visual_counts_match_store_length (ops : List StoreOp) (cam : Vec3)
    (scene : List SceneObject) :
    (markersOf (renderAnnotations cam (ops.foldl applyStoreOp initialAnnotations)
        scene)).length = (ops.foldl applyStoreOp initialAnnotations).length ∧
    (labelsOf (renderAnnotations cam (ops.foldl applyStoreOp initialAnnotations)
        scene)).length = (ops.foldl applyStoreOp initialAnnotations).length := by
  constructor
  · rw [markersOf_render, List.length_map, List.enum_length]
  · rw [labelsOf, List.length_map, markersOf_render, List.length_map,
      List.enum_length]

/-! ## C2: out-of-range update/delete -/

/-- C2 fails on the code: `delete(-1)` on the one-record store does not leave
the array unchanged (and throws nothing) — JS `splice` resolves the negative
index from the end and removes the last record. -/
theorem delete_negative_index_removes_record :
    deleteAnnotation initialAnnotations (-1) ≠ initialAnnotations ∧
    ( deleteAnnotation initialAnnotations (-1)).length = 0 := by
  constructor
  · decide
  · rfl

/-- C2 amended: `update` with any index outside `[0, length)` is a no-op, and
`delete` is a no-op for indices `≥ length`; but a NEGATIVE index `i` makes
`delete` remove the record at `max(length + i, 0)` (JS splice semantics), so
any negative index on a nonempty array removes a record. -/
theorem out_of_range_update_delete_behavior (anns : List Annotation) (i : Int)
    (label : String) (pos : Vec3) (color shape : String)
    (desc : Option String) (hout : ¬ (0 ≤ i ∧ i < (anns.length : Int))) :
    updateAnnotation anns i label pos color shape desc = anns ∧
    ((anns.length : Int) ≤ i → deleteAnnotation anns i = anns) ∧
    (i < 0 →
      deleteAnnotation anns i = anns.eraseIdx ((anns.length : Int) + i).toNat) ∧
    (i < 0 → 0 < anns.length →
      ( deleteAnnotation anns i).length = anns.length - 1) := by
  refine ⟨?_, ?_, ?_, ?_⟩
  · unfold updateAnnotation
    rw [if_neg hout]
  · intro hge
    unfold deleteAnnotation spliceStart
    rw [if_neg (by omega)]
    have hm : min i.toNat anns.length = anns.length := by omega
    rw [hm]
    exact List.eraseIdx_eq_self.mpr le_rfl
  · intro hneg
    unfold deleteAnnotation spliceStart
    rw [if_pos hneg]
  · intro hneg hlen
    unfold deleteAnnotation spliceStart
    rw [if_pos hneg]
    exact List.length_eraseIdx_of_lt (by omega)

/-- Witness for C2 (amended) at index −1 on the one-record initial store. -/
theorem out_of_range_update_delete_behavior_witness :
    updateAnnotation initialAnnotations (-1) "x" ⟨0, 0, 0⟩ "#fff" "sphere" none =
      initialAnnotations ∧
    ( deleteAnnotation initialAnnotations (-1)).length =
      initialAnnotations.length - 1 := by
  have h := out_of_range_update_delete_behavior initialAnnotations (-1) "x"
    ⟨0, 0, 0⟩ "#fff" "sphere" none (by decide)
  exact ⟨h.1, h.2.2.2 (by decide) (by decide)⟩

/-! ## C1: marker geometry after a shape update -/

/-- C1 fails on the code: updating the initial annotation's shape to `cube`
and re-rendering produces a marker whose geometry is still the fixed
`RingGeometry(0.03, 0.04, 32)`, not the cube geometry of `getMarkerGeometry`
— that function has no call site in the render path. -/
theorem cube_update_renders_ring_not_cube :
    (markersOf (renderAnnotations ⟨5, 3, 5⟩
        ( updateAnnotation initialAnnotations 0 "Gate" ⟨9/10, 5/100, 2/10⟩
          "#8b7ba8" "cube" (some "d")) [.other 0])).map (·.geom) =
      [Geometry.ring (3/100) (1/25) 32] ∧
    getMarkerGeometry "cube" =
      Geometry.box (5/100 * 2) (5/100 * 2) (5/100 * 2) ∧
    (markersOf (renderAnnotations ⟨5, 3, 5⟩
        ( updateAnnotation initialAnnotations 0 "Gate" ⟨9/10, 5/100, 2/10⟩
          "#8b7ba8" "cube" (some "d")) [.other 0])).map (·.geom) ≠
      [getMarkerGeometry "cube"] := by
  refine ⟨rfl, rfl, ?_⟩
  intro h
  have h2 : Geometry.ring (3/100) (1/25) 32 =
      Geometry.box (5/100 * 2) (5/100 * 2) (5/100 * 2) :=
    List.head_eq_of_cons_eq h
  exact Geometry.noConfusion h2

/-- C1 amended: an update (to `cube` or any other shape) leaves the array
length unchanged, and the re-render rebuilds every marker with a fresh
geometry that is always the fixed ring — the shape value never reaches the
marker geometry. -/
theorem update_preserves_length_and_marker_geometry_is_ring
    (anns : List Annotation) (i : Int) (label : String) (pos : Vec3)
    (color shape : String) (desc : Option String) (cam : Vec3)
    (scene : List SceneObject) :
    ( updateAnnotation anns i label pos color shape desc).length = anns.length ∧
    (markersOf (renderAnnotations cam
        ( updateAnnotation anns i label pos color shape desc) scene)).map (·.geom) =
      List.replicate anns.length (Geometry.ring (3/100) (1/25) 32) := by
  have hlen : ( updateAnnotation anns i label pos color shape desc).length =
      anns.length := by
    unfold updateAnnotation
    by_cases h : 0 ≤ i ∧ i < (anns.length : Int)
    · rw [if_pos h, List.length_set]
    · rw [if_neg h]
  refine ⟨hlen, ?_⟩
  rw [markersOf_render, List.map_map]
  have haux : ∀ (e : List (Nat × Annotation)),
      (e.map ((fun m => m.geom) ∘ fun p => renderMarker cam p.1 p.2)) =
        List.replicate e.length (Geometry.ring (3/100) (1/25) 32) := by
    intro e
    induction e with
    | nil => rfl
    | cons p t ih =>
      rw [List.map_cons, List.length_cons, List.replicate_succ, ih]
      rfl
  rw [haux, List.enum_length, hlen]

/-! ## C3: purity of the rendered visual set -/

/-- C3 fails on the code: two re-renders from the very same annotation array
can produce different visual sets, because `marker.lookAt(camera.position)`
bakes the current camera position into the marker orientation. -/
theorem render_depends_on_camera_state :
    annotationVisuals (renderAnnotations ⟨5, 3, 5⟩ initialAnnotations [.other 0]) ≠
      annotationVisuals (renderAnnotations ⟨0, 0, 10⟩ initialAnnotations [.other 0]) := by
  intro h
  have h2 := congrArg (fun l => (markersOf l).map (fun m => m.lookAtTarget.x)) h
  have h3 : ([5] : List ℚ) = [0] := h2
  have h4 : (5 : ℚ) = 0 := List.head_eq_of_cons_eq h3
  norm_num at h4

/-- C3 amended: the rendered annotation-visual set is a pure function of the
annotation array TOGETHER WITH the camera position at render time; with the
marker orientation erased it is a pure function of the array alone.  No other
state (in particular not the previous scene contents) influences it. -/
theorem render_pure_in_array_and_camera (anns : List Annotation)
    (cam cam' : Vec3) (s s' : List SceneObject) :
    annotationVisuals (renderAnnotations cam anns s) =
      annotationVisuals (renderAnnotations cam anns s') ∧
    (annotationVisuals (renderAnnotations cam anns s)).map eraseOrientation =
      (annotationVisuals (renderAnnotations cam' anns s')).map eraseOrientation := by
  constructor
  · rw [annotationVisuals_render, annotationVisuals_render]
  · rw [annotationVisuals_render, annotationVisuals_render]
    exact built_erase_orientation cam cam' anns.enum

/-! ## C4: saving the edit modal discards the description -/

/-- C4: for an editor open on record `i`, saving the modal sets record `i`'s
label (trimmed), color and shape from the form fields, leaves its position
unchanged, and overwrites its description with `undefined` (`none`), because
`saveEdit` invokes `updateAnnotation` without a description argument. -/
theorem save_edit_discards_description (s : AppState) (i : Nat)
    (form : EditForm) (hedit : s.currentEditIndex = some i)
    (hi : i < s.annotations.length) :
    (saveEdit s form).map (fun t => t.annotations[i]?) =
      some (some { position := (s.annotations.get ⟨i, hi⟩).position
                   label := form.labelValue.trim
                   description := none
                   color := form.colorValue
                   shape := form.shapeValue }) ∧
    (saveEdit s form).map (fun t => t.annotations.length) =
      some s.annotations.length := by
  have hget : s.annotations[i]? = some (s.annotations.get ⟨i, hi⟩) := by
    rw [List.getElem?_eq_getElem hi]
    rfl
  unfold saveEdit
  rw [hedit]
  simp only [hget]
  have hupd : ( updateAnnotation s.annotations i form.labelValue.trim
      (s.annotations.get ⟨i, hi⟩).position form.colorValue form.shapeValue
      none) =
      s.annotations.set i { position := (s.annotations.get ⟨i, hi⟩).position
                            label := form.labelValue.trim
                            description := none
                            color := form.colorValue
                            shape := form.shapeValue } := by
    unfold updateAnnotation
    rw [if_pos (by omega)]
    rfl
  rw [hupd]
  constructor
  · show some ((s.annotations.set i
      { position := (s.annotations.get ⟨i, hi⟩).position
        label := form.labelValue.trim
        description := none
        color := form.colorValue
        shape := form.shapeValue })[i]?) = _
    rw [List.getElem?_set_self hi]
  · show some (s.annotations.set i
      { position := (s.annotations.get ⟨i, hi⟩).position
        label := form.labelValue.trim
        description := none
        color := form.colorValue
        shape := form.shapeValue }).length = some s.annotations.length
    rw [List.length_set]

/-- Witness for C4 on the kiosk state whose editor is open on the initial
annotation. -/
theorem save_edit_discards_description_witness :
    (saveEdit editingState ⟨"Gate", "#ff0000", "cube"⟩).map
        (fun t => t.annotations[0]?) =
      some (some { position := ⟨9/10, 5/100, 2/10⟩
                   label := ("Gate").trim
                   description := none
                   color := "#ff0000"
                   shape := "cube" }) ∧
    (saveEdit editingState ⟨"Gate", "#ff0000", "cube"⟩).map
        (fun t => t.annotations.length) = some 1 :=
  save_edit_discards_description editingState 0 ⟨"Gate", "#ff0000", "cube"⟩
    rfl (by decide)

/-! ## C6: frame effect of a mouse-move during a drag -/

/-- C6: a mouse-move during a drag of record `i` mutates at most the position
field of record `i`: every record at an index `j ≠ i` is entirely unchanged,
and record `i`'s label, description, color and shape are unchanged. -/
theorem mouse_move_frame_effect (s : AppState) (hit : Option Vec3) (i j : Nat)
    (hdrag : s.draggedAnnotationIndex = some i) (hne : j ≠ i) :
    (onMouseMove s hit).annotations[j]? = s.annotations[j]? ∧
    ((onMouseMove s hit).annotations[i]?).map dataFields =
      (s.annotations[i]?).map dataFields := by
  unfold onMouseMove
  cases hb : s.isDragging with
  | false => exact ⟨rfl, rfl⟩
  | true =>
    rw [hdrag]
    simp only [Bool.not_true, Bool.false_eq_true, if_false]
    cases hit with
    | none => exact ⟨rfl, rfl⟩
    | some p =>
      show (setPosition s.annotations i p)[j]? = s.annotations[j]? ∧
        ((setPosition s.annotations i p)[i]?).map dataFields =
          (s.annotations[i]?).map dataFields
      cases ha : s.annotations[i]? with
      | none =>
        have hsp : setPosition s.annotations i p = s.annotations := by
          unfold setPosition
          rw [ha]
        rw [hsp]
        exact ⟨rfl, by rw [ha]⟩
      | some a =>
        have hsp : setPosition s.annotations i p =
            s.annotations.set i { a with position := p } := by
          unfold setPosition
          rw [ha]
        have hilt : i < s.annotations.length := by
          by_contra hc
          rw [List.getElem?_eq_none (by omega)] at ha
          exact Option.noConfusion ha
        constructor
        · rw [hsp]
          exact List.getElem?_set_ne (Ne.symm hne)
        · rw [hsp, List.getElem?_set_self hilt]
          rfl

/-- Witness for C6: during the drag of annotation 0, a mouse-move hitting the
proxy sphere leaves the (absent) record 1 slot and record 0's data fields
untouched. -/
theorem mouse_move_frame_effect_witness :
    (onMouseMove draggingState (some ⟨3/2, 0, 0⟩)).annotations[1]? =
      draggingState.annotations[1]? ∧
    ((onMouseMove draggingState (some ⟨3/2, 0, 0⟩)).annotations[0]?).map
        dataFields = (draggingState.annotations[0]?).map dataFields :=
  mouse_move_frame_effect draggingState (some ⟨3/2, 0, 0⟩) 0 1 rfl
    (by decide)

/-! ## C7: the drag/editor coupling -/

/-- C7 fails on the code: from the fresh kiosk, adding an annotation (which
opens its editor), pressing the mouse on its marker and then closing the
modal reaches a state where a drag is in progress but no editor is open —
`closeEditModal` does not cancel the drag, so the dragged index does not
equal the (nonexistent) editor index. -/
theorem drag_survives_modal_close :
    (runEvents [.evAddNew, .evMouseDown (some (some 1)),
        .evCloseModal]).isDragging = true ∧
    (runEvents [.evAddNew, .evMouseDown (some (some 1)),
        .evCloseModal]).currentEditIndex = none ∧
    (runEvents [.evAddNew, .evMouseDown (some (some 1)),
        .evCloseModal]).draggedAnnotationIndex = some 1 ∧
    (runEvents [.evAddNew, .evMouseDown (some (some 1)),
        .evCloseModal]).draggedAnnotationIndex ≠
      (runEvents [.evAddNew, .evMouseDown (some (some 1)),
        .evCloseModal]).currentEditIndex := by
  refine ⟨rfl, rfl, rfl, ?_⟩
  intro h
  exact Option.noConfusion h

/-- C7 amended: a mouse-down with no editor open never starts a drag, and a
mouse-down whose ray first hits a line or a marker of any annotation other
than the edited one never starts a drag; when a mouse-down does start a drag,
the dragged index equals the editor index.  (The coupling is however not an
invariant of every reachable state: `closeEditModal` does not cancel an
in-progress drag.) -/
theorem drag_start_requires_edited_marker (s : AppState) (hit : MouseDownHit)
    (j k : Nat) :
    (s.currentEditIndex = none → onMouseDown s hit = s) ∧
    (s.currentEditIndex = some k → hit = some (some j) → j ≠ k →
      onMouseDown s hit = s) ∧
    (s.currentEditIndex = some k → hit = some none → onMouseDown s hit = s) ∧
    (s.currentEditIndex = some k → hit = none → onMouseDown s hit = s) ∧
    ((onMouseDown s hit).isDragging = true → s.isDragging = true ∨
      (onMouseDown s hit).draggedAnnotationIndex =
        (onMouseDown s hit).currentEditIndex) := by
  refine ⟨?_, ?_, ?_, ?_, ?_⟩
  · intro hnone
    unfold onMouseDown
    rw [hnone]
  · intro hk hj hne
    unfold onMouseDown
    rw [hk, hj]
    simp only [if_neg hne]
  · intro hk hj
    unfold onMouseDown
    rw [hk, hj]
  · intro hk hj
    unfold onMouseDown
    rw [hk, hj]
  · intro hdrag
    by_cases hd : s.isDragging = true
    · exact Or.inl hd
    · right
      cases he : s.currentEditIndex with
      | none =>
        have heq : onMouseDown s hit = s := by
          unfold onMouseDown
          rw [he]
        rw [heq] at hdrag
        exact absurd hdrag hd
      | some edit =>
        cases hit with
        | none =>
          have heq : onMouseDown s none = s := by
            unfold onMouseDown
            rw [he]
          rw [heq] at hdrag
          exact absurd hdrag hd
        | some inner =>
          cases inner with
          | none =>
            have heq : onMouseDown s (some none) = s := by
              unfold onMouseDown
              rw [he]
            rw [heq] at hdrag
            exact absurd hdrag hd
          | some j' =>
            by_cases hje : j' = edit
            · have heq : onMouseDown s (some (some j')) =
                  { s with isDragging := true,
                           draggedAnnotationIndex := some edit,
                           controlsEnabled := false } := by
                unfold onMouseDown
                rw [he]
                simp only [if_pos hje]
              rw [heq]
              show some edit = s.currentEditIndex
              exact he.symm
            · have heq : onMouseDown s (some (some j')) = s := by
                unfold onMouseDown
                rw [he]
                simp only [if_neg hje]
              rw [heq] at hdrag
              exact absurd hdrag hd

/-- Witness for C7 (amended) on the state whose editor is open on
annotation 0. -/
theorem drag_start_requires_edited_marker_witness :
    onMouseDown editingState (some (some 1)) = editingState ∧
    onMouseDown editingState (some none) = editingState ∧
    (onMouseDown editingState (some (some 0))).draggedAnnotationIndex =
      (onMouseDown editingState (some (some 0))).currentEditIndex := by
  refine ⟨?_, ?_, ?_⟩
  · exact (drag_start_requires_edited_marker editingState (some (some 1))
      1 0).2.1 rfl rfl (by decide)
  · exact (drag_start_requires_edited_marker editingState (some none)
      1 0).2.2.1 rfl rfl
  · exact ((drag_start_requires_edited_marker editingState (some (some 0))
      0 0).2.2.2.2 rfl).resolve_left (by decide)

/-! ## C8: mouse-move during a drag repositions to the sphere hit -/

/-- C8: during a drag of record `i`, a mouse-move whose ray hits the
invisible proxy sphere (radius 1.5, centered at the model origin) at `p`
sets record `i`'s position to that first intersection point and performs a
full re-render of the annotation visuals. -/
theorem drag_move_sets_position_and_rerenders (s : AppState) (i : Nat)
    (p : Vec3) (hdragging : s.isDragging = true)
    (hidx : s.draggedAnnotationIndex = some i)
    (hi : i < s.annotations.length) (_hp : OnProxySphere p) :
    ((onMouseMove s (some p)).annotations[i]?).map (·.position) = some p ∧
    (onMouseMove s (some p)).scene =
      renderAnnotations s.camera (onMouseMove s (some p)).annotations
        s.scene := by
  have ha : ∃ a, s.annotations[i]? = some a :=
    ⟨s.annotations.get ⟨i, hi⟩, by rw [List.getElem?_eq_getElem hi]; rfl⟩
  obtain ⟨a, ha⟩ := ha
  have hsp : setPosition s.annotations i p =
      s.annotations.set i { a with position := p } := by
    unfold setPosition
    rw [ha]
  have hmm : onMouseMove s (some p) =
      AppState.rerender { s with annotations := setPosition s.annotations i p } := by
    unfold onMouseMove
    rw [hdragging, hidx]
    simp only [Bool.not_true, Bool.false_eq_true, if_false]
  rw [hmm]
  constructor
  · show ((setPosition s.annotations i p)[i]?).map (·.position) = some p
    rw [hsp, List.getElem?_set_self hi]
    rfl
  · rfl

/-- Witness for C8: during the drag of annotation 0, a mouse-move hitting the
proxy sphere at (1.5, 0, 0) moves record 0 there and rebuilds the scene. -/
theorem drag_move_sets_position_and_rerenders_witness :
    ((onMouseMove draggingState (some ⟨3/2, 0, 0⟩)).annotations[0]?).map
        (·.position) = some ⟨3/2, 0, 0⟩ ∧
    (onMouseMove draggingState (some ⟨3/2, 0, 0⟩)).scene =
      renderAnnotations draggingState.camera
        (onMouseMove draggingState (some ⟨3/2, 0, 0⟩)).annotations
        draggingState.scene :=
  drag_move_sets_position_and_rerenders draggingState 0 ⟨3/2, 0, 0⟩ rfl rfl
    (by decide) (by norm_num [OnProxySphere, proxySphereRadius])

/-! ## C9: the camera easing function -/

/-- C9: the quadratic ease-in-out satisfies eased(0) = 0 and eased(1) = 1 —
so the lerped camera position and look-at target equal the start values at
progress 0 and the target values at progress 1 — and it is continuous on
[0, 1] and monotone non-decreasing on each of [0, 1/2] and [1/2, 1]. -/
theorem easing_endpoint_continuity_monotone :
    eased 0 = 0 ∧ eased 1 = 1 ∧
    (∀ a b : Vec3R, lerpVectors a b (eased 0) = a ∧
      lerpVectors a b (eased 1) = b) ∧
    ContinuousOn eased (Set.Icc (0:ℝ) 1) ∧
    MonotoneOn eased (Set.Icc (0:ℝ) (1/2)) ∧
    MonotoneOn eased (Set.Icc (1/2:ℝ) 1) := by
  have h0 : eased 0 = 0 := by
    unfold eased
    rw [if_pos (by norm_num)]
    ring
  have h1 : eased 1 = 1 := by
    unfold eased
    rw [if_neg (by norm_num)]
    ring
  refine ⟨h0, h1, ?_, ?_, ?_, ?_⟩
  · intro a b
    cases a
    cases b
    constructor <;> simp [lerpVectors, lerp, h0, h1]
  · have heq : eased = fun p : ℝ =>
        if p ≤ 1/2 then 2 * p * p else -1 + (4 - 2 * p) * p := by
      funext p
      unfold eased
      rcases lt_trichotomy p (1/2 : ℝ) with hlt | heqp | hgt
      · rw [if_pos hlt, if_pos (le_of_lt hlt)]
      · rw [if_neg (by rw [heqp]; exact lt_irrefl _), if_pos (le_of_eq heqp),
          heqp]
        norm_num
      · rw [if_neg (not_lt.mpr (le_of_lt hgt)), if_neg (not_le.mpr hgt)]
    rw [heq]
    apply Continuous.continuousOn
    apply Continuous.if_le
    · exact (continuous_const.mul continuous_id).mul continuous_id
    · exact continuous_const.add
        ((continuous_const.sub (continuous_const.mul continuous_id)).mul
          continuous_id)
    · exact continuous_id
    · exact continuous_const
    · intro x hx
      rw [hx]
      norm_num
  · intro x hx y hy hxy
    unfold eased
    obtain ⟨hx0, hx2⟩ := hx
    obtain ⟨hy0, hy2⟩ := hy
    by_cases hx1 : x < 1/2 <;> by_cases hy1 : y < 1/2 <;>
      simp only [if_pos, if_neg, hx1, hy1, if_true, if_false] <;>
      nlinarith
  · intro x hx y hy hxy
    unfold eased
    obtain ⟨hx0, hx2⟩ := hx
    obtain ⟨hy0, hy2⟩ := hy
    have hx1 : ¬ x < 1/2 := not_lt.mpr hx0
    have hy1 : ¬ y < 1/2 := not_lt.mpr hy0
    rw [if_neg hx1, if_neg hy1]
    nlinarith

end CoinKiosk
